import Mathlib

/-!
Verification development for the docling-fast-server job subsystem.

The definitions below are a shallow embedding of the Python sources:
  src/services/queue_manager.py  (QueueManager)
  src/routes/jobs.py             (job status / force close routes)
  src/routes/ocr.py              (async submission route)
  src/services/warmup_service.py (WarmupService)

Python dicts keyed by strings are embedded as association lists; the
in-memory jobs dict and the persisted jobs file hold the same table type.
Timestamps (UTC ISO strings in the source) are embedded as natural
numbers ordered the same way; machine payload bytes are represented by
their sizes only.
-/

namespace DoclingFast

/-- Association-list lookup, embedding Python `dict.get`. -/
def alookup {β : Type} : List (String × β) → String → Option β
  | [], _ => none
  | (k, v) :: rest, key => if k = key then some v else alookup rest key

/-- Association-list update, embedding Python `d[k] = v` (replace the
first binding of the key, or append a fresh binding). -/
def aset {β : Type} : List (String × β) → String → β → List (String × β)
  | [], key, val => [(key, val)]
  | (k, v) :: rest, key, val =>
      if k = key then (key, val) :: rest else (k, v) :: aset rest key val

/-- Association-list removal, embedding Python `del d[k]`. -/
def aremove {β : Type} : List (String × β) → String → List (String × β)
  | [], _ => []
  | (k, v) :: rest, key =>
      if k = key then rest else (k, v) :: aremove rest key

/-- One stored argument of a job submission: raw PDF bytes are kept only
as their size, other arguments are strings (queue_manager stores
`list(args)`; `_filter_job_data_for_storage` replaces bytes by a size
marker). -/
inductive ArgV where
  | bytesData (size : Nat)
  | strData (s : String)
deriving DecidableEq, Repr

/-- One job record, embedding the job dict built by
`QueueManager.enqueue_job` / `create_job` in queue_manager.py.
`created_at` is `none` when the stored string is missing or unparsable
(the rotation logic keeps such jobs). -/
structure JobRecord where
  id : String
  deployment_id : String
  status : String
  created_at : Option Nat
  updated_at : Nat
  args : List ArgV
  kwargs : List (String × String)
  result : Option String
  error : Option String
  logs : List String
  active : Bool
  waiting : Bool
  filename : String
deriving DecidableEq, Repr

/-- The jobs table: contents of the shared jobs file
(/tmp/docling_jobs.json) a.k.a. `self.jobs` after `_sync_jobs`. -/
abbrev Table := List (String × JobRecord)

/-- The separately stored full results (files in /tmp/docling_results,
one JSON file per job id), embedded as an association list. -/
abbrev ResultsDir := List (String × String)

/-- Embedding of Python `job_id.startswith(prefix)` via the character
lists of the strings. -/
def strStartsWith (s p : String) : Bool :=
  p.data.isPrefixOf s.data

/-- Embedding of `QueueManager.is_valid_job_id_for_deployment`
(queue_manager.py lines 125-162) at the two call sites used by the
routes (`cleanup_if_invalid=False`, so the cleanup side effects do not
alter the answer): accept when the id carries the deployment prefix,
otherwise accept exactly when the stored record has the current
deployment id (backwards compatibility path), otherwise reject. -/
def is_valid_job_id_for_deployment (deployment_id : String) (fileJobs : Table)
    (job_id : String) : Bool :=
  if strStartsWith job_id (deployment_id ++ "-") then true
  else
    match alookup fileJobs job_id with
    | some job_data => job_data.deployment_id = deployment_id
    | none => false

/-- Embedding of `QueueManager._get_full_result`: read the separate
result file for a job if it exists. -/
def get_full_result (results : ResultsDir) (job_id : String) : Option String :=
  alookup results job_id

/-- Embedding of `QueueManager.get_job` (queue_manager.py lines
690-715): validate the deployment, load the latest table, and for
completed jobs merge the full result back into the returned record. -/
def get_job (deployment_id : String) (fileJobs : Table) (results : ResultsDir)
    (job_id : String) : Option JobRecord :=
  if is_valid_job_id_for_deployment deployment_id fileJobs job_id then
    match alookup fileJobs job_id with
    | none => none
    | some job_data =>
        if job_data.status = "completed" then
          match get_full_result results job_id with
          | some full => some { job_data with result := some full }
          | none => some job_data
        else some job_data
  else none

/-- Embedding of `QueueManager.delete_job` (queue_manager.py lines
717-739): validate the deployment, then remove the record and its
result file; the Bool is the returned success flag. -/
def delete_job (deployment_id : String) (fileJobs : Table) (results : ResultsDir)
    (job_id : String) : Table × ResultsDir × Bool :=
  if is_valid_job_id_for_deployment deployment_id fileJobs job_id then
    match alookup fileJobs job_id with
    | some _ =>
        (aremove fileJobs job_id, aremove results job_id, true)
    | none => (fileJobs, results, false)
  else (fileJobs, results, false)

theorem alookup_aset_self {β : Type} (t : List (String × β)) (k : String) (v : β) :
    alookup (aset t k v) k = some v := by
  induction t with
  | nil => simp [aset, alookup]
  | cons hd tl ih =>
      obtain ⟨k', v'⟩ := hd
      by_cases h : k' = k
      · simp [aset, h, alookup]
      · simp [aset, h, alookup, ih]

theorem alookup_aset_ne {β : Type} (t : List (String × β)) (k k' : String) (v : β)
    (h : k' ≠ k) : alookup (aset t k v) k' = alookup t k' := by
  have h' : k ≠ k' := Ne.symm h
  induction t with
  | nil => simp [aset, alookup, h']
  | cons hd tl ih =>
      obtain ⟨a, b⟩ := hd
      by_cases ha : a = k
      · subst ha
        simp [aset, alookup, h']
      · simp [aset, ha, alookup, ih]

theorem alookup_aremove_ne {β : Type} (t : List (String × β)) (k k' : String)
    (h : k' ≠ k) : alookup (aremove t k) k' = alookup t k' := by
  have h' : k ≠ k' := Ne.symm h
  induction t with
  | nil => simp [aremove]
  | cons hd tl ih =>
      obtain ⟨a, b⟩ := hd
      by_cases ha : a = k
      · subst ha
        simp [aremove, alookup, h']
      · simp [aremove, ha, alookup, ih]

theorem aset_fresh_append {β : Type} (t : List (String × β)) (k : String) (v : β)
    (h : alookup t k = none) : aset t k v = t ++ [(k, v)] := by
  induction t with
  | nil => simp [aset]
  | cons hd tl ih =>
      obtain ⟨a, b⟩ := hd
      by_cases ha : a = k
      · simp [alookup, ha] at h
      · simp [alookup, ha] at h
        simp [aset, ha, ih h]

/-- C8: an id without the current deployment prefix whose stored record
(if any) belongs to another deployment is rejected: get returns none and
delete returns false, leaving both stores unchanged. -/
theorem orphan_job_id_rejected (deployment_id job_id : String) (fileJobs : Table)
    (results : ResultsDir)
    (hpre : strStartsWith job_id (deployment_id ++ "-") = false)
    (hrec : ∀ r, alookup fileJobs job_id = some r → r.deployment_id ≠ deployment_id) :
    get_job deployment_id fileJobs results job_id = none ∧
      delete_job deployment_id fileJobs results job_id = (fileJobs, results, false) := by
  have hvalid : is_valid_job_id_for_deployment deployment_id fileJobs job_id = false := by
    unfold is_valid_job_id_for_deployment
    rw [if_neg (by simp [hpre])]
    cases hcase : alookup fileJobs job_id with
    | none => simp
    | some r => simp [hrec r hcase]
  constructor
  · unfold get_job
    simp [hvalid]
  · unfold delete_job
    simp [hvalid]

/-- Sample record from a previous deployment, used by witnesses. -/
def staleRecord : JobRecord :=
  { id := "olddep-1111", deployment_id := "olddep", status := "completed"
    created_at := some 100, updated_at := 200, args := [], kwargs := []
    result := some "r", error := none, logs := [], active := false
    waiting := false, filename := "a.pdf" }

theorem orphan_job_id_rejected_witness :
    get_job "newdep" [("olddep-1111", staleRecord)] [] "olddep-1111" = none ∧
      delete_job "newdep" [("olddep-1111", staleRecord)] [] "olddep-1111" =
        ([("olddep-1111", staleRecord)], [], false) :=
  orphan_job_id_rejected "newdep" "olddep-1111" [("olddep-1111", staleRecord)] []
    (by decide)
    (by intro r hr; simp [alookup] at hr; simp [← hr, staleRecord])

/-- C10: a job id without the deployment prefix is nevertheless accepted
when the stored record carries the current deployment id (the
backwards-compatibility branch of is_valid_job_id_for_deployment): the
validation returns true, get returns the record, and delete removes it
returning true. -/
theorem legacy_job_id_accepted (deployment_id job_id : String) (fileJobs : Table)
    (results : ResultsDir) (r : JobRecord)
    (hrec : alookup fileJobs job_id = some r)
    (hdep : r.deployment_id = deployment_id)
    (hstat : r.status ≠ "completed") :
    is_valid_job_id_for_deployment deployment_id fileJobs job_id = true ∧
      get_job deployment_id fileJobs results job_id = some r ∧
      delete_job deployment_id fileJobs results job_id =
        (aremove fileJobs job_id, aremove results job_id, true) := by
  have hvalid : is_valid_job_id_for_deployment deployment_id fileJobs job_id = true := by
    unfold is_valid_job_id_for_deployment
    by_cases hpre : strStartsWith job_id (deployment_id ++ "-") = true
    · simp [hpre]
    · simp [hpre, hrec, hdep]
  refine ⟨hvalid, ?_, ?_⟩
  · unfold get_job
    simp [hvalid, hrec, hstat]
  · unfold delete_job
    simp [hvalid, hrec]

/-- Sample legacy record created before id prefixing, used by witnesses. -/
def legacyRecord : JobRecord :=
  { id := "plainid", deployment_id := "curdep", status := "queued"
    created_at := some 100, updated_at := 100, args := [], kwargs := []
    result := none, error := none, logs := [], active := false
    waiting := true, filename := "b.pdf" }

theorem legacy_job_id_accepted_witness :
    is_valid_job_id_for_deployment "curdep" [("plainid", legacyRecord)] "plainid" = true ∧
      get_job "curdep" [("plainid", legacyRecord)] [] "plainid" = some legacyRecord ∧
      delete_job "curdep" [("plainid", legacyRecord)] [] "plainid" = ([], [], true) :=
  legacy_job_id_accepted "curdep" "plainid" [("plainid", legacyRecord)] [] legacyRecord
    (by simp [alookup]) (by decide) (by decide)

/-- Embedding of the status mapping in the `GET /jobs/...` route
(jobs.py lines 21-32): internal statuses are translated to
RQ-compatible names before they are returned to the client. -/
def rq_status_of (job_status : String) : String :=
  if job_status = "completed" then "finished"
  else if job_status = "processing" then "started"
  else if job_status = "queued" then "queued"
  else if job_status = "failed" then "failed"
  else job_status

/-- The response body of `GET /jobs/...` (jobs.py lines 41-50),
restricted to the fields the claims mention. -/
structure JobStatusResponse where
  job_id : String
  status : String
  result : Option String
  error : Option String
  filename : String
deriving DecidableEq, Repr

/-- Embedding of the `get_job_status` route handler (jobs.py lines
12-52): fetch the job through `QueueManager.get_job`, answer 404 (none)
when absent, otherwise report the RQ-mapped status together with the
result and error fields of the record. -/
def get_job_status_route (deployment_id : String) (fileJobs : Table)
    (results : ResultsDir) (job_id : String) : Option JobStatusResponse :=
  match get_job deployment_id fileJobs results job_id with
  | none => none
  | some job_data =>
      some { job_id := job_id, status := rq_status_of job_data.status
             result := job_data.result, error := job_data.error
             filename := job_data.filename }

/-- A job of deployment d1 currently being processed, used to refute C9
as stated. -/
def processingRecord : JobRecord :=
  { id := "d1-u1", deployment_id := "d1", status := "processing"
    created_at := some 100, updated_at := 150, args := [], kwargs := []
    result := none, error := none, logs := [], active := true
    waiting := false, filename := "a.pdf" }

/-- C9 counterexample: for a job whose stored status is `processing`,
the route reports `started`, not `queued` or `processing`: the handler
maps internal statuses to RQ-compatible names. -/
theorem get_job_status_reports_started_not_processing :
    (get_job_status_route "d1" [("d1-u1", processingRecord)] [] "d1-u1").map
        (fun r => r.status) = some "started" ∧
      some "started" ≠ some "processing" ∧ some "started" ≠ some "queued" := by
  refine ⟨?_, by decide, by decide⟩
  rfl

/-- C9 amended: before resolution the route reports `queued` (stored
status queued) or `started` (stored status processing); after a
successful resolution the stored status is completed and the route
reports `finished` with the result populated from the separately stored
full result. -/
theorem get_job_status_route_mapping (deployment_id job_id : String)
    (fileJobs : Table) (results : ResultsDir) (r : JobRecord) (full : String)
    (hvalid : is_valid_job_id_for_deployment deployment_id fileJobs job_id = true)
    (hrec : alookup fileJobs job_id = some r) :
    (r.status = "queued" →
      (get_job_status_route deployment_id fileJobs results job_id).map
        (fun resp => resp.status) = some "queued") ∧
    (r.status = "processing" →
      (get_job_status_route deployment_id fileJobs results job_id).map
        (fun resp => resp.status) = some "started") ∧
    (r.status = "completed" → alookup results job_id = some full →
      get_job_status_route deployment_id fileJobs results job_id =
        some { job_id := job_id, status := "finished", result := some full,
               error := r.error, filename := r.filename }) := by
  refine ⟨?_, ?_, ?_⟩
  · intro hq
    simp [get_job_status_route, get_job, hvalid, hrec, hq, rq_status_of]
  · intro hp
    simp [get_job_status_route, get_job, hvalid, hrec, hp, rq_status_of]
  · intro hc hfull
    simp [get_job_status_route, get_job, hvalid, hrec, hc, get_full_result, hfull,
      rq_status_of]

/-- A completed job of deployment d1, used by the C9 witness. -/
def completedRecord : JobRecord :=
  { id := "d1-u2", deployment_id := "d1", status := "completed"
    created_at := some 100, updated_at := 180, args := [], kwargs := []
    result := some "summary", error := none, logs := [], active := false
    waiting := false, filename := "b.pdf" }

theorem get_job_status_route_mapping_witness :
    get_job_status_route "d1" [("d1-u2", completedRecord)]
        [("d1-u2", "fullresult")] "d1-u2" =
      some { job_id := "d1-u2", status := "finished", result := some "fullresult",
             error := completedRecord.error, filename := completedRecord.filename } :=
  (get_job_status_route_mapping "d1" "d1-u2" [("d1-u2", completedRecord)]
    [("d1-u2", "fullresult")] completedRecord "fullresult"
    (by decide) (by simp [alookup])).2.2 (by decide) (by simp [alookup])

/-- Boolean membership in a list of strings (Python `in` on a set of
keyword names). -/
def mem_str : List String → String → Bool
  | [], _ => false
  | x :: rest, s => if x = s then true else mem_str rest s

/-- The RQ-specific keyword names that `enqueue_job` strips before
invoking the task function (queue_manager.py lines 937-941); note that
`job_id` is among them. -/
def rq_kwarg_names : List String :=
  ["job_timeout", "result_ttl", "failure_ttl", "job_id", "depends_on",
   "timeout", "retry", "meta", "description", "at", "in"]

/-- Embedding of `args[1] if len(args) > 1 else "Unknown"`; a second
argument that is not a string is given no string form in the model. -/
def filename_of_args : List ArgV → String
  | _ :: ArgV.strData s :: _ => s
  | _ => "Unknown"

/-- The outcome of `enqueue_job`: the id of the returned mock job
object, the updated jobs table, and the kwargs actually passed to the
task function. -/
structure EnqueueOutcome where
  returned_job_id : String
  jobs : Table
  task_kwargs : List (String × String)
deriving Repr

/-- Embedding of `QueueManager.enqueue_job` (queue_manager.py lines
926-1000) up to the point where the job has been recorded and handed to
the worker pool: a fresh id `deployment_id ++ "-" ++ base_job_id` is
always generated (`base_job_id` stands for the freshly drawn uuid4),
RQ-specific kwargs, including any `job_id`, are filtered out, and the
new record is stored under the generated id. -/
def enqueue_job (deployment_id base_job_id : String) (now : Nat)
    (fileJobs : Table) (args : List ArgV) (kwargs : List (String × String)) :
    EnqueueOutcome :=
  let job_id := deployment_id ++ "-" ++ base_job_id
  let task_kwargs := kwargs.filter (fun kv => ¬ mem_str rq_kwarg_names kv.1 = true)
  let job_data : JobRecord :=
    { id := job_id, deployment_id := deployment_id, status := "queued",
      created_at := some now, updated_at := now, args := args,
      kwargs := task_kwargs, result := none, error := none, logs := [],
      active := false, waiting := true, filename := filename_of_args args }
  { returned_job_id := job_id, jobs := aset fileJobs job_id job_data,
    task_kwargs := task_kwargs }

/-- C2 counterexample: a submission that supplies `job_id` J1 (the only
channel through which a caller could pass it reaches `enqueue_job` as a
kwarg; the route itself declares no such form field) on an empty store
does not echo J1: the generated id is `d1-u1`, no record is created
under J1, and the `job_id` kwarg never reaches the task. -/
theorem enqueue_job_ignores_client_job_id :
    (enqueue_job "d1" "u1" 100 [] [] [("job_id", "J1")]).returned_job_id = "d1-u1" ∧
      "d1-u1" ≠ "J1" ∧
      alookup (enqueue_job "d1" "u1" 100 [] [] [("job_id", "J1")]).jobs "J1" = none ∧
      (enqueue_job "d1" "u1" 100 [] [] [("job_id", "J1")]).task_kwargs = [] := by
  refine ⟨rfl, by decide, ?_, ?_⟩
  · decide
  · decide

/-- C2 amended: client-supplied job identifiers are not honoured and no
conflict path exists: `enqueue_job` always returns the freshly generated
`deployment_id ++ "-" ++ uuid`, stores exactly one new queued record
under that id (whatever ids the kwargs carry), and strips every
RQ-specific kwarg, `job_id` included, from the kwargs passed to the
task. -/
theorem enqueue_job_generates_fresh_id (deployment_id base_job_id : String)
    (now : Nat) (fileJobs : Table) (args : List ArgV)
    (kwargs : List (String × String))
    (hfresh : alookup fileJobs (deployment_id ++ "-" ++ base_job_id) = none) :
    (enqueue_job deployment_id base_job_id now fileJobs args kwargs).returned_job_id =
        deployment_id ++ "-" ++ base_job_id ∧
      (∃ r : JobRecord, r.status = "queued" ∧
        (enqueue_job deployment_id base_job_id now fileJobs args kwargs).jobs =
          fileJobs ++ [(deployment_id ++ "-" ++ base_job_id, r)]) ∧
      alookup (enqueue_job deployment_id base_job_id now fileJobs args kwargs).task_kwargs
        "job_id" = none := by
  refine ⟨rfl, ?_, ?_⟩
  · refine ⟨_, ?_, aset_fresh_append fileJobs _ _ hfresh⟩
    rfl
  · show alookup (kwargs.filter fun kv => ¬ mem_str rq_kwarg_names kv.1 = true)
      "job_id" = none
    induction kwargs with
    | nil => rfl
    | cons hd tl ih =>
        by_cases hmem : mem_str rq_kwarg_names hd.1 = true
        · simpa [List.filter, hmem] using ih
        · have hne : hd.1 ≠ "job_id" := by
            intro hkey
            apply hmem
            rw [hkey]
            decide
          simpa [List.filter, hmem, alookup, hne] using ih

theorem enqueue_job_generates_fresh_id_witness :
    (enqueue_job "d1" "u9" 50 [] [] [("job_id", "J1"), ("x", "y")]).returned_job_id =
        "d1" ++ "-" ++ "u9" ∧
      (∃ r : JobRecord, r.status = "queued" ∧
        (enqueue_job "d1" "u9" 50 [] [] [("job_id", "J1"), ("x", "y")]).jobs =
          [] ++ [("d1" ++ "-" ++ "u9", r)]) ∧
      alookup (enqueue_job "d1" "u9" 50 [] [] [("job_id", "J1"), ("x", "y")]).task_kwargs
        "job_id" = none :=
  enqueue_job_generates_fresh_id "d1" "u9" 50 [] [] [("job_id", "J1"), ("x", "y")] rfl

/-- Embedding of `QueueManager._ensure_jobs_file`: create the jobs file
with an empty table when it does not exist. -/
def ensure_jobs_file : Option Table → Option Table
  | none => some []
  | some t => some t

/-- Embedding of `QueueManager._cleanup_old_queues` (queue_manager.py
lines 83-114) restricted to the jobs file: when the jobs file exists it
is deleted and recreated empty. -/
def cleanup_old_queues : Option Table → Option Table
  | some _ => ensure_jobs_file none
  | none => none

/-- The jobs-file part of `QueueManager.__init__` (queue_manager.py
lines 47-81): `_ensure_jobs_file` runs first, then
`_cleanup_old_queues`. -/
def queue_manager_startup_file (file : Option Table) : Option Table :=
  cleanup_old_queues (ensure_jobs_file file)

/-- Embedding of `QueueManager._load_jobs_from_file` (queue_manager.py
lines 304-318): a missing (or corrupt, embedded as `none`) file reads as
the empty table. -/
def load_jobs_from_file : Option Table → Table
  | none => []
  | some t => t

/-- A record persisted by a previous process of the same deployment,
used to refute C3 as stated. -/
def prevProcessRecord : JobRecord :=
  { id := "d1-aaaa", deployment_id := "d1", status := "completed"
    created_at := some 10, updated_at := 20, args := [], kwargs := []
    result := some "r", error := none, logs := [], active := false
    waiting := false, filename := "c.pdf" }

/-- C3 counterexample: a record stored in the persistent jobs file is no
longer returned by get after a new process constructs a QueueManager,
because `__init__` runs `_cleanup_old_queues`, which deletes the jobs
file and recreates it empty (the deployment id itself persists across
the restart, so the id would otherwise still validate). -/
theorem job_record_lost_after_restart :
    load_jobs_from_file (some [("d1-aaaa", prevProcessRecord)]) =
        [("d1-aaaa", prevProcessRecord)] ∧
      get_job "d1"
        (load_jobs_from_file
          (queue_manager_startup_file (some [("d1-aaaa", prevProcessRecord)])))
        [] "d1-aaaa" = none := by
  constructor
  · rfl
  · rfl

/-- C3 amended: startup always wipes the store, so after a restart no
job id whatsoever is found: for every prior file content, get over the
freshly initialized file returns none. -/
theorem get_after_startup_is_none (deployment_id job_id : String)
    (file : Option Table) (results : ResultsDir) :
    get_job deployment_id
        (load_jobs_from_file (queue_manager_startup_file file)) results job_id =
      none := by
  have hfile : queue_manager_startup_file file = some [] := by
    cases file <;> rfl
  rw [hfile]
  unfold get_job is_valid_job_id_for_deployment
  by_cases hpre : strStartsWith job_id (deployment_id ++ "-") = true
  · simp [load_jobs_from_file, hpre, alookup]
  · simp [load_jobs_from_file, hpre, alookup]

/-- One filesystem operation performed by the persistence layer of
queue_manager.py; the op list of a save is derived from
`_save_jobs_to_file` and `_rotate_jobs_file`. -/
inductive FsOp where
  | archiveOp (t : Nat)
  | cleanupArchivesOp (now retention_hours : Nat)
  | unlinkActiveOp
  | createActiveEmptyOp
  | writeTempOp (content : Table)
  | fsyncOp
  | renameOp
deriving DecidableEq, Repr

/-- Filesystem state relevant to the jobs store: the active jobs file,
the temporary file, and the archive directory (mtime and content of
each archive). -/
structure FsState where
  active : Option Table
  temp : Option Table
  archives : List (Nat × Table)
deriving DecidableEq, Repr

/-- Effect of one filesystem operation: archiving gzips the current
active content, `cleanupArchivesOp` embeds `_cleanup_old_archives`
(delete archives older than the retention window), rename installs the
temp file as the active file. -/
def applyFsOp (s : FsState) : FsOp → FsState
  | .archiveOp t => { s with archives := (t, s.active.getD []) :: s.archives }
  | .cleanupArchivesOp now retention_hours =>
      { s with archives :=
          s.archives.filter (fun a => ¬ a.1 + retention_hours * 3600 < now) }
  | .unlinkActiveOp => { s with active := none }
  | .createActiveEmptyOp => { s with active := some [] }
  | .writeTempOp c => { s with temp := some c }
  | .fsyncOp => s
  | .renameOp =>
      match s.temp with
      | some c => { s with active := some c, temp := none }
      | none => s

/-- Run a list of filesystem operations in order. -/
def runFs (s : FsState) (ops : List FsOp) : FsState := ops.foldl applyFsOp s

/-- What `_load_jobs_from_file` observes on a filesystem state: a
missing active file reads as the empty table. -/
def load_jobs (s : FsState) : Table := s.active.getD []

/-- Embedding of `QueueManager._check_file_rotation_needed`
(queue_manager.py lines 420-436): rotation triggers when the file size
in MB strictly exceeds `max_file_size_mb` or the in-memory job count
strictly exceeds `max_jobs_per_file` (the size comparison is stated in
exact arithmetic: size/2^20 > maxMB iff size > maxMB * 2^20). -/
def check_file_rotation_needed (fileExists : Bool) (fileSizeBytes : Nat)
    (max_file_size_mb : Nat) (jobCount : Nat) (max_jobs_per_file : Nat) : Bool :=
  if fileExists = false then false
  else if max_file_size_mb * 1048576 < fileSizeBytes then true
  else if max_jobs_per_file < jobCount then true
  else false

/-- Embedding of the keep-last-hour filter inside `_save_jobs_to_file`
(queue_manager.py lines 488-512): after a rotation only jobs created
within the last hour survive; jobs with a missing or unparsable
created_at are kept. -/
def keep_recent_jobs (now : Nat) (jobs_data : Table) : Table :=
  jobs_data.filter fun kv =>
    match kv.2.created_at with
    | some c => decide (now < c + 3600)
    | none => true

/-- Embedding of the argument filtering in
`_filter_job_data_for_storage`: bytes become a size marker, long
strings are truncated. -/
def filter_arg : ArgV → ArgV
  | .bytesData n => .strData ("<bytes_data_size_" ++ toString n ++ ">")
  | .strData s =>
      if 1000 < s.length then
        .strData (String.mk (s.data.take 100) ++ "...<truncated_size_" ++
          toString s.length ++ ">")
      else .strData s

/-- Embedding of the result truncation in
`_filter_job_data_for_storage`, with the stored result summary embedded
as one string. -/
def filter_result : Option String → Option String
  | none => none
  | some r =>
      if 1000 < r.length then
        some (String.mk (r.data.take 200) ++ "...<truncated_size_" ++
          toString r.length ++ ">")
      else some r

/-- Embedding of `QueueManager._filter_job_data_for_storage`
(queue_manager.py lines 320-359): strip large payloads from args and
result and keep only the last 10 log entries. -/
def filter_job_data_for_storage (j : JobRecord) : JobRecord :=
  { j with args := j.args.map filter_arg,
           result := filter_result j.result,
           logs := j.logs.drop (j.logs.length - 10) }

/-- Embedding of `QueueManager._rotate_jobs_file` (queue_manager.py
lines 438-464) as its filesystem operations: archive the current file,
delete it, create a fresh empty one, then clean old archives; a missing
file makes rotation a no-op. -/
def rotate_jobs_file_ops (now retention_hours : Nat) (fileExists : Bool) :
    List FsOp :=
  if fileExists then
    [FsOp.archiveOp now, FsOp.unlinkActiveOp, FsOp.createActiveEmptyOp,
     FsOp.cleanupArchivesOp now retention_hours]
  else []

/-- Embedding of `QueueManager._save_jobs_to_file` (queue_manager.py
lines 479-546) as its filesystem operations: rotate first when needed
(keeping only recent jobs in the data to be written), filter each
record, then write the temp file, flush/fsync it and atomically rename
it over the active file. -/
def save_jobs_to_file_ops (now retention_hours : Nat) (fileExists : Bool)
    (fileSizeBytes max_file_size_mb max_jobs_per_file : Nat)
    (memJobsCount : Nat) (jobs_data : Table) : List FsOp :=
  let rot := check_file_rotation_needed fileExists fileSizeBytes
    max_file_size_mb memJobsCount max_jobs_per_file
  let data := if rot then keep_recent_jobs now jobs_data else jobs_data
  let filtered := data.map (fun kv => (kv.1, filter_job_data_for_storage kv.2))
  (if rot then rotate_jobs_file_ops now retention_hours fileExists else []) ++
    [FsOp.writeTempOp filtered, FsOp.fsyncOp, FsOp.renameOp]

/-- A minimal queued record created at time 100, used by the rotation
counterexamples. -/
def recentJob (n : String) : JobRecord :=
  { id := n, deployment_id := "d1", status := "queued"
    created_at := some 100, updated_at := 100, args := [], kwargs := []
    result := none, error := none, logs := [], active := false
    waiting := true, filename := "x.pdf" }

/-- Store content of three recent jobs with a job-count threshold of 2,
which makes a save trigger rotation. -/
def overCountTable : Table :=
  [("d1-1", recentJob "d1-1"), ("d1-2", recentJob "d1-2"),
   ("d1-3", recentJob "d1-3")]

/-- Filesystem state whose active jobs file holds `overCountTable`. -/
def overCountFs : FsState :=
  { active := some overCountTable, temp := none, archives := [] }

/-- Store content of a single recent job. -/
def singleJobTable : Table := [("d1-1", recentJob "d1-1")]

/-- Filesystem state whose active jobs file holds `singleJobTable`. -/
def singleJobFs : FsState :=
  { active := some singleJobTable, temp := none, archives := [] }

/-- C5 counterexample: a save that triggers rotation (3 jobs against a
threshold of 2) does not follow the temp-write/fsync/rename discipline
alone: after its first two operations (archive, unlink) the active file
is missing, so a concurrent reader, or the next read after a crash at
that point, observes the empty table, which is neither the fully-old
nor the fully-new content. -/
theorem save_during_rotation_not_atomic :
    check_file_rotation_needed true 10 10 3 2 = true ∧
      load_jobs (runFs overCountFs
          ((save_jobs_to_file_ops 100 24 true 10 10 2 3 overCountTable).take 2)) =
        [] ∧
      overCountTable ≠ [] ∧
      load_jobs (runFs overCountFs
          (save_jobs_to_file_ops 100 24 true 10 10 2 3 overCountTable)) =
        overCountTable := by
  refine ⟨by decide, by decide, by decide, by decide⟩

/-- C5 amended: a save that does not trigger rotation is atomic: every
proper prefix of its operations leaves the active file unchanged (so a
reader or a crash before the rename sees exactly the previously
committed table), and the complete sequence installs exactly the
filtered new table. Saves that trigger rotation additionally delete and
recreate the active file non-atomically before the temp-write/rename
step. -/
theorem save_without_rotation_atomic (now retention_hours : Nat)
    (fileExists : Bool) (fileSizeBytes max_file_size_mb max_jobs_per_file : Nat)
    (memJobsCount : Nat) (jobs_data : Table) (s0 : FsState)
    (hrot : check_file_rotation_needed fileExists fileSizeBytes
      max_file_size_mb memJobsCount max_jobs_per_file = false) :
    (∀ k, k < (save_jobs_to_file_ops now retention_hours fileExists
        fileSizeBytes max_file_size_mb max_jobs_per_file memJobsCount
        jobs_data).length →
      load_jobs (runFs s0 ((save_jobs_to_file_ops now retention_hours fileExists
        fileSizeBytes max_file_size_mb max_jobs_per_file memJobsCount
        jobs_data).take k)) = load_jobs s0) ∧
      load_jobs (runFs s0 (save_jobs_to_file_ops now retention_hours fileExists
        fileSizeBytes max_file_size_mb max_jobs_per_file memJobsCount
        jobs_data)) =
        jobs_data.map (fun kv => (kv.1, filter_job_data_for_storage kv.2)) := by
  have hops : save_jobs_to_file_ops now retention_hours fileExists
      fileSizeBytes max_file_size_mb max_jobs_per_file memJobsCount jobs_data =
      [FsOp.writeTempOp
        (jobs_data.map (fun kv => (kv.1, filter_job_data_for_storage kv.2))),
       FsOp.fsyncOp, FsOp.renameOp] := by
    unfold save_jobs_to_file_ops
    rw [hrot]
    simp
  rw [hops]
  constructor
  · intro k hk
    simp only [List.length] at hk
    interval_cases k
    · rfl
    · simp [runFs, applyFsOp, load_jobs, List.take, List.foldl]
    · simp [runFs, applyFsOp, load_jobs, List.take, List.foldl]
  · simp [runFs, applyFsOp, load_jobs, List.foldl]

theorem save_without_rotation_atomic_witness :
    (∀ k, k < (save_jobs_to_file_ops 100 24 true 10 10 2 1
        singleJobTable).length →
      load_jobs (runFs singleJobFs
          ((save_jobs_to_file_ops 100 24 true 10 10 2 1
            singleJobTable).take k)) =
        load_jobs singleJobFs) ∧
      load_jobs (runFs singleJobFs
          (save_jobs_to_file_ops 100 24 true 10 10 2 1 singleJobTable)) =
        singleJobTable.map
          (fun kv => (kv.1, filter_job_data_for_storage kv.2)) :=
  save_without_rotation_atomic 100 24 true 10 10 2 1 singleJobTable singleJobFs
    (by decide)

/-- C7 counterexample: with a job-count threshold of 2 and three jobs
all created within the last hour, a save triggers rotation and creates
an archive, but the active store after the rotation cycle still holds
all three records: the record count does not drop below the threshold. -/
theorem rotation_leaves_count_over_threshold :
    check_file_rotation_needed true 10 10 3 2 = true ∧
      (runFs overCountFs
          (save_jobs_to_file_ops 100 24 true 10 10 2 3 overCountTable)).archives.length
        = 1 ∧
      (load_jobs (runFs overCountFs
          (save_jobs_to_file_ops 100 24 true 10 10 2 3 overCountTable))).length
        = 3 ∧
      ¬ ((3 : Nat) ≤ 2) := by
  refine ⟨by decide, by decide, by decide, by decide⟩

/-- C7 amended: when a save finds the store over a threshold it archives
the current store content into a timestamped archive (which survives the
retention sweep of the same save) and keeps only records created within
the last hour; the resulting active store count is the number of those
recent records, which is below the count threshold only when few enough
records are recent. -/
theorem rotation_archives_and_keeps_recent (now retention_hours : Nat)
    (fileSizeBytes max_file_size_mb max_jobs_per_file : Nat)
    (memJobsCount : Nat) (jobs_data : Table) (s0 : FsState)
    (hrot : check_file_rotation_needed true fileSizeBytes
      max_file_size_mb memJobsCount max_jobs_per_file = true) :
    ((now, load_jobs s0) ∈
        (runFs s0 (save_jobs_to_file_ops now retention_hours true
          fileSizeBytes max_file_size_mb max_jobs_per_file memJobsCount
          jobs_data)).archives) ∧
      load_jobs (runFs s0 (save_jobs_to_file_ops now retention_hours true
          fileSizeBytes max_file_size_mb max_jobs_per_file memJobsCount
          jobs_data)) =
        (keep_recent_jobs now jobs_data).map
          (fun kv => (kv.1, filter_job_data_for_storage kv.2)) ∧
      ((keep_recent_jobs now jobs_data).length ≤ max_jobs_per_file →
        (load_jobs (runFs s0 (save_jobs_to_file_ops now retention_hours true
          fileSizeBytes max_file_size_mb max_jobs_per_file memJobsCount
          jobs_data))).length ≤ max_jobs_per_file) := by
  have hops : save_jobs_to_file_ops now retention_hours true
      fileSizeBytes max_file_size_mb max_jobs_per_file memJobsCount jobs_data =
      [FsOp.archiveOp now, FsOp.unlinkActiveOp, FsOp.createActiveEmptyOp,
       FsOp.cleanupArchivesOp now retention_hours,
       FsOp.writeTempOp ((keep_recent_jobs now jobs_data).map
         (fun kv => (kv.1, filter_job_data_for_storage kv.2))),
       FsOp.fsyncOp, FsOp.renameOp] := by
    unfold save_jobs_to_file_ops rotate_jobs_file_ops
    rw [hrot]
    simp
  rw [hops]
  have hload : load_jobs (runFs s0
      [FsOp.archiveOp now, FsOp.unlinkActiveOp, FsOp.createActiveEmptyOp,
       FsOp.cleanupArchivesOp now retention_hours,
       FsOp.writeTempOp ((keep_recent_jobs now jobs_data).map
         (fun kv => (kv.1, filter_job_data_for_storage kv.2))),
       FsOp.fsyncOp, FsOp.renameOp]) =
      (keep_recent_jobs now jobs_data).map
        (fun kv => (kv.1, filter_job_data_for_storage kv.2)) := by
    simp [runFs, applyFsOp, load_jobs, List.foldl]
  refine ⟨?_, hload, ?_⟩
  · simp only [runFs, List.foldl, applyFsOp]
    simp [List.mem_filter, load_jobs]
  · intro hle
    rw [hload, List.length_map]
    exact hle

theorem rotation_archives_and_keeps_recent_witness :
    ((100, load_jobs overCountFs) ∈
      (runFs overCountFs
        (save_jobs_to_file_ops 100 24 true 10 10 2 3 singleJobTable)).archives) ∧
      load_jobs (runFs overCountFs
          (save_jobs_to_file_ops 100 24 true 10 10 2 3 singleJobTable)) =
        (keep_recent_jobs 100 singleJobTable).map
          (fun kv => (kv.1, filter_job_data_for_storage kv.2)) ∧
      ((keep_recent_jobs 100 singleJobTable).length ≤ 2 →
        (load_jobs (runFs overCountFs
          (save_jobs_to_file_ops 100 24 true 10 10 2 3
            singleJobTable))).length ≤ 2) :=
  rotation_archives_and_keeps_recent 100 24 10 10 2 3 singleJobTable overCountFs
    (by decide)

/-- Embedding of `QueueManager._create_result_summary` restricted to
what the claims observe: the summary is a size-bounded digest of the
result whose exact shape no claim quantifies, so it is represented by
the result value itself. -/
def create_result_summary (result : String) : String := result

/-- Embedding of `QueueManager.update_job_status` (queue_manager.py
lines 659-688): sync, and when the job exists overwrite status, active,
waiting, result (summarised) and error unconditionally, refresh
updated_at, store the full result separately when completing, and save.
There is no guard on the current status. -/
def update_job_status (fileJobs : Table) (results : ResultsDir) (now : Nat)
    (job_id status : String) (active waiting : Bool)
    (result : Option String) (error : Option String) : Table × ResultsDir :=
  match alookup fileJobs job_id with
  | none => (fileJobs, results)
  | some jd =>
      let filtered_result := result.map create_result_summary
      let jd' := { jd with
        status := status, active := active, waiting := waiting,
        result := filtered_result, error := error, updated_at := now }
      let results' :=
        match result with
        | some r => if status = "completed" then aset results job_id r else results
        | none => results
      (aset fileJobs job_id jd', results')

/-- Embedding of the `force_close_job` route handler (jobs.py lines
274-317): 404 when the job is not found (or fails deployment
validation inside get_job), 400 when the current status is not
processing, queued or started, otherwise mark the job failed with the
synthetic abandonment message and answer 200. -/
def force_close_job (deployment_id : String) (fileJobs : Table)
    (results : ResultsDir) (job_id reason : String) (now : Nat) :
    Table × ResultsDir × Nat :=
  match get_job deployment_id fileJobs results job_id with
  | none => (fileJobs, results, 404)
  | some jd =>
      if jd.status = "processing" ∨ jd.status = "queued" ∨ jd.status = "started" then
        let p := update_job_status fileJobs results now job_id "failed" false false
          none (some ("Job force closed: " ++ reason))
        (p.1, p.2, 200)
      else (fileJobs, results, 400)

/-- System state for the operation-level model: the shared store, plus
which jobs the worker pool has yet to start, is running, or has
finished (force-close does not cancel a running worker, cf. the
finally-less `except` structure of process_job in enqueue_job). -/
structure SysState where
  deployment_id : String
  jobs : Table
  results : ResultsDir
  pendingW : List String
  runningW : List String
  doneW : List String
deriving DecidableEq, Repr

/-- State after `enqueue_job` ran and handed the new job to the
executor. -/
def enqueue_state (s : SysState) (now : Nat) (base_job_id : String)
    (args : List ArgV) (kwargs : List (String × String)) : SysState :=
  { s with jobs := (enqueue_job s.deployment_id base_job_id now s.jobs args kwargs).jobs,
           pendingW := (s.deployment_id ++ "-" ++ base_job_id) :: s.pendingW }

/-- State after a worker thread picked the job up and marked it
processing (start of process_job). -/
def worker_start_state (s : SysState) (now : Nat) (id : String) : SysState :=
  let p := update_job_status s.jobs s.results now id "processing" true false none none
  { s with jobs := p.1, results := p.2,
           pendingW := s.pendingW.erase id, runningW := id :: s.runningW }

/-- State after the running worker completed the task successfully and
wrote the terminal status (update_job_status has no status guard). -/
def worker_complete_state (s : SysState) (now : Nat) (id result : String) : SysState :=
  let p := update_job_status s.jobs s.results now id "completed" false false
    (some result) none
  { s with jobs := p.1, results := p.2,
           runningW := s.runningW.erase id, doneW := id :: s.doneW }

/-- State after the running worker caught an exception and wrote the
failed status. -/
def worker_fail_state (s : SysState) (now : Nat) (id msg : String) : SysState :=
  let p := update_job_status s.jobs s.results now id "failed" false false
    none (some msg)
  { s with jobs := p.1, results := p.2,
           runningW := s.runningW.erase id, doneW := id :: s.doneW }

/-- State after an administrative force-close request (whatever its
HTTP outcome; rejected requests leave the store unchanged). -/
def force_close_state (s : SysState) (now : Nat) (id reason : String) : SysState :=
  let p := force_close_job s.deployment_id s.jobs s.results id reason now
  { s with jobs := p.1, results := p.2.1 }

/-- State after a DELETE request for a job id. -/
def delete_state (s : SysState) (id : String) : SysState :=
  let p := delete_job s.deployment_id s.jobs s.results id
  { s with jobs := p.1, results := p.2.1 }

/-- The operations the system performs on the store, derived from the
call sites in routes/ocr.py, routes/jobs.py and the worker closure in
enqueue_job: submission, the three writes of a worker thread, the
force-close route and the delete route. -/
inductive SysStep (now : Nat) : SysState → SysState → Prop where
  | enqueueStep (s : SysState) (base_job_id : String) (args : List ArgV)
      (kwargs : List (String × String))
      (hfresh : alookup s.jobs (s.deployment_id ++ "-" ++ base_job_id) = none) :
      SysStep now s (enqueue_state s now base_job_id args kwargs)
  | workerStart (s : SysState) (id : String) (h : id ∈ s.pendingW) :
      SysStep now s (worker_start_state s now id)
  | workerComplete (s : SysState) (id result : String) (h : id ∈ s.runningW) :
      SysStep now s (worker_complete_state s now id result)
  | workerFail (s : SysState) (id msg : String) (h : id ∈ s.runningW) :
      SysStep now s (worker_fail_state s now id msg)
  | forceCloseStep (s : SysState) (id reason : String) :
      SysStep now s (force_close_state s now id reason)
  | deleteStep (s : SysState) (id : String) :
      SysStep now s (delete_state s id)

theorem alookup_mem {β : Type} (t : List (String × β)) (k : String) (v : β)
    (h : alookup t k = some v) : (k, v) ∈ t := by
  induction t with
  | nil => simp [alookup] at h
  | cons hd tl ih =>
      obtain ⟨a, b⟩ := hd
      by_cases ha : a = k
      · subst ha
        simp [alookup] at h
        simp [h]
      · simp [alookup, ha] at h
        simp [ih h]

theorem alookup_aremove_self_of_nodup {β : Type} (t : List (String × β))
    (k : String) (hnd : (t.map Prod.fst).Nodup) :
    alookup (aremove t k) k = none := by
  induction t with
  | nil => simp [aremove, alookup]
  | cons hd tl ih =>
      obtain ⟨a, b⟩ := hd
      simp only [List.map_cons, List.nodup_cons] at hnd
      by_cases ha : a = k
      · subst ha
        simp only [aremove, if_pos rfl]
        cases hcase : alookup tl a with
        | none => exact hcase
        | some v =>
            exact absurd (List.mem_map_of_mem Prod.fst (alookup_mem tl a v hcase))
              (by simpa using hnd.1)
      · simp only [aremove, if_neg ha, alookup, if_neg ha]
        exact ih hnd.2

theorem alookup_update_job_status_ne (fileJobs : Table) (results : ResultsDir)
    (now : Nat) (job_id status : String) (active waiting : Bool)
    (result : Option String) (error : Option String) (k : String)
    (hne : k ≠ job_id) :
    alookup (update_job_status fileJobs results now job_id status active waiting
      result error).1 k = alookup fileJobs k := by
  unfold update_job_status
  cases hcase : alookup fileJobs job_id with
  | none => rfl
  | some jd => simpa using alookup_aset_ne fileJobs job_id k _ hne

/-- For a record that exists and validates, get_job returns a record
with the same status (the completed-branch merge changes only the
result field). -/
theorem get_job_status_eq (deployment_id job_id : String) (fileJobs : Table)
    (results : ResultsDir) (r : JobRecord)
    (hvalid : is_valid_job_id_for_deployment deployment_id fileJobs job_id = true)
    (hrec : alookup fileJobs job_id = some r) :
    ∃ jd, get_job deployment_id fileJobs results job_id = some jd ∧
      jd.status = r.status := by
  by_cases hc : r.status = "completed"
  · cases hfull : get_full_result results job_id with
    | none => exact ⟨r, by simp [get_job, hvalid, hrec, hc, hfull], rfl⟩
    | some full =>
        exact ⟨{ r with result := some full },
          by simp [get_job, hvalid, hrec, hc, hfull], rfl⟩
  · exact ⟨r, by simp [get_job, hvalid, hrec, hc], rfl⟩

/-- Force-closing a job whose stored status is terminal never alters the
store: the route answers 404 (validation failed) or 400 (terminal
status), both leaving the tables unchanged. -/
theorem force_close_terminal_unchanged (deployment_id job_id reason : String)
    (fileJobs : Table) (results : ResultsDir) (now : Nat) (r : JobRecord)
    (hrec : alookup fileJobs job_id = some r)
    (hterm : r.status = "completed" ∨ r.status = "failed") :
    (force_close_job deployment_id fileJobs results job_id reason now).1 =
        fileJobs ∧
      (force_close_job deployment_id fileJobs results job_id reason now).2.1 =
        results := by
  have hnotok : ∀ st : String, st = r.status →
      ¬ (st = "processing" ∨ st = "queued" ∨ st = "started") := by
    intro st hst hcontra
    cases hterm with
    | inl hc =>
        rw [hst, hc] at hcontra
        rcases hcontra with h | h | h <;> simp at h
    | inr hf =>
        rw [hst, hf] at hcontra
        rcases hcontra with h | h | h <;> simp at h
  cases hget : get_job deployment_id fileJobs results job_id with
  | none => constructor <;> simp [force_close_job, hget]
  | some jd =>
      have hstat : jd.status = r.status := by
        by_cases hvalid :
            is_valid_job_id_for_deployment deployment_id fileJobs job_id = true
        · obtain ⟨jd', hjd', hs⟩ :=
            get_job_status_eq deployment_id job_id fileJobs results r hvalid hrec
          rw [hget] at hjd'
          cases hjd'
          exact hs
        · unfold get_job at hget
          rw [eq_false_of_ne_true hvalid] at hget
          simp at hget
      have hno := hnotok jd.status hstat
      constructor <;> simp [force_close_job, hget, hno]

theorem alookup_force_close_ne (deployment_id job_id reason : String)
    (fileJobs : Table) (results : ResultsDir) (now : Nat) (k : String)
    (hne : k ≠ job_id) :
    alookup (force_close_job deployment_id fileJobs results job_id reason now).1 k =
      alookup fileJobs k := by
  cases hget : get_job deployment_id fileJobs results job_id with
  | none => simp [force_close_job, hget]
  | some jd =>
      by_cases hst : jd.status = "processing" ∨ jd.status = "queued" ∨
          jd.status = "started"
      · have hother := alookup_update_job_status_ne fileJobs results now job_id
          "failed" false false none (some ("Job force closed: " ++ reason)) k hne
        simp [force_close_job, hget, hst, hother]
      · simp [force_close_job, hget, hst]

/-- C4 amended: once a job is completed or failed AND its worker thread
has finished, no operation of the system changes its status: submission
cannot reuse the id, worker writes concern pending or running jobs only,
force-close is rejected (400 when the id validates, leaving the store
unchanged), and delete only removes the record. The exception the code
permits beyond force-close itself: a worker thread that is still
running can overwrite a force-closed (failed) status with its own
terminal write, since update_job_status applies the new status
unconditionally. -/
theorem terminal_status_stable_after_worker_done (now : Nat) (s s' : SysState)
    (j : String) (r : JobRecord)
    (hstep : SysStep now s s')
    (hrec : alookup s.jobs j = some r)
    (hterm : r.status = "completed" ∨ r.status = "failed")
    (hnp : j ∉ s.pendingW) (hnr : j ∉ s.runningW)
    (hnodup : (s.jobs.map Prod.fst).Nodup)
    (hvalid : is_valid_job_id_for_deployment s.deployment_id s.jobs j = true) :
    (∀ r', alookup s'.jobs j = some r' → r'.status = r.status) ∧
      (∀ reason, force_close_job s.deployment_id s.jobs s.results j reason now =
        (s.jobs, s.results, 400)) := by
  constructor
  · intro r' hr'
    cases hstep with
    | enqueueStep base_job_id args kwargs hfresh =>
        have hne : j ≠ s.deployment_id ++ "-" ++ base_job_id := by
          intro hj
          rw [hj] at hrec
          rw [hrec] at hfresh
          cases hfresh
        have : alookup (enqueue_state s now base_job_id args kwargs).jobs j =
            alookup s.jobs j := by
          simp only [enqueue_state, enqueue_job]
          exact alookup_aset_ne s.jobs _ j _ hne
        rw [this, hrec] at hr'
        cases hr'
        rfl
    | workerStart id h =>
        have hne : j ≠ id := fun hj => hnp (hj ▸ h)
        have : alookup (worker_start_state s now id).jobs j = alookup s.jobs j := by
          simp only [worker_start_state]
          exact alookup_update_job_status_ne s.jobs s.results now id "processing"
            true false none none j hne
        rw [this, hrec] at hr'
        cases hr'
        rfl
    | workerComplete id result h =>
        have hne : j ≠ id := fun hj => hnr (hj ▸ h)
        have : alookup (worker_complete_state s now id result).jobs j =
            alookup s.jobs j := by
          simp only [worker_complete_state]
          exact alookup_update_job_status_ne s.jobs s.results now id "completed"
            false false (some result) none j hne
        rw [this, hrec] at hr'
        cases hr'
        rfl
    | workerFail id msg h =>
        have hne : j ≠ id := fun hj => hnr (hj ▸ h)
        have : alookup (worker_fail_state s now id msg).jobs j =
            alookup s.jobs j := by
          simp only [worker_fail_state]
          exact alookup_update_job_status_ne s.jobs s.results now id "failed"
            false false none (some msg) j hne
        rw [this, hrec] at hr'
        cases hr'
        rfl
    | forceCloseStep id reason =>
        by_cases hne : j = id
        · subst hne
          have hfc := force_close_terminal_unchanged s.deployment_id j reason
            s.jobs s.results now r hrec hterm
          have : alookup (force_close_state s now j reason).jobs j =
              alookup s.jobs j := by
            simp only [force_close_state]
            rw [hfc.1]
          rw [this, hrec] at hr'
          cases hr'
          rfl
        · have : alookup (force_close_state s now id reason).jobs j =
              alookup s.jobs j := by
            simp only [force_close_state]
            exact alookup_force_close_ne s.deployment_id id reason s.jobs
              s.results now j hne
          rw [this, hrec] at hr'
          cases hr'
          rfl
    | deleteStep id =>
        by_cases hne : j = id
        · subst hne
          have : alookup (delete_state s j).jobs j = none ∨
              alookup (delete_state s j).jobs j = alookup s.jobs j := by
            simp only [delete_state, delete_job]
            by_cases hv : is_valid_job_id_for_deployment s.deployment_id s.jobs j
            · rw [if_pos hv, hrec]
              exact Or.inl (alookup_aremove_self_of_nodup s.jobs j hnodup)
            · rw [if_neg hv]
              exact Or.inr rfl
          cases this with
          | inl hnone => rw [hnone] at hr'; cases hr'
          | inr hsame =>
              rw [hsame, hrec] at hr'
              cases hr'
              rfl
        · have : alookup (delete_state s id).jobs j = alookup s.jobs j := by
            simp only [delete_state, delete_job]
            by_cases hv : is_valid_job_id_for_deployment s.deployment_id s.jobs id
            · rw [if_pos hv]
              cases hcase : alookup s.jobs id with
              | none => rfl
              | some jd => simpa using alookup_aremove_ne s.jobs id j hne
            · rw [if_neg hv]
          rw [this, hrec] at hr'
          cases hr'
          rfl
  · intro reason
    obtain ⟨jd, hjd, hs⟩ := get_job_status_eq s.deployment_id j s.jobs s.results
      r hvalid hrec
    have hnotok : ¬ (jd.status = "processing" ∨ jd.status = "queued" ∨
        jd.status = "started") := by
      intro hcontra
      rw [hs] at hcontra
      cases hterm with
      | inl hc => rw [hc] at hcontra; rcases hcontra with h | h | h <;> simp at h
      | inr hf => rw [hf] at hcontra; rcases hcontra with h | h | h <;> simp at h
    simp [force_close_job, hjd, hnotok]

/-- Empty system state of deployment d1. -/
def c4s0 : SysState :=
  { deployment_id := "d1", jobs := [], results := [], pendingW := []
    runningW := [], doneW := [] }

/-- After submitting one job. -/
def c4s1 : SysState := enqueue_state c4s0 10 "u1" [] []

/-- After the worker thread started it (status processing). -/
def c4s2 : SysState := worker_start_state c4s1 10 "d1-u1"

/-- After an administrative force close (status failed, a terminal
state). -/
def c4s3 : SysState := force_close_state c4s2 10 "d1-u1" "low cpu activity"

/-- After the still-running worker finished and wrote its own terminal
status. -/
def c4s4 : SysState := worker_complete_state c4s3 10 "d1-u1" "resultdata"

/-- C4 counterexample: a force-closed job is in the terminal status
failed, yet the subsequent terminal write of its still-running worker
thread (a legal system operation: force close does not stop the
worker) changes the status to completed, because update_job_status
applies the new status unconditionally. -/
theorem force_closed_job_overwritten_by_worker :
    (alookup c4s2.jobs "d1-u1").map (fun r => r.status) = some "processing" ∧
      SysStep 10 c4s2 c4s3 ∧
      (alookup c4s3.jobs "d1-u1").map (fun r => r.status) = some "failed" ∧
      SysStep 10 c4s3 c4s4 ∧
      (alookup c4s4.jobs "d1-u1").map (fun r => r.status) = some "completed" := by
  refine ⟨by decide, SysStep.forceCloseStep c4s2 "d1-u1" "low cpu activity",
    by decide, SysStep.workerComplete c4s3 "d1-u1" "resultdata" (by decide),
    by decide⟩

/-- A completed job whose worker thread has already finished. -/
def doneRecord : JobRecord :=
  { id := "d1-w1", deployment_id := "d1", status := "completed"
    created_at := some 5, updated_at := 9, args := [], kwargs := []
    result := some "r", error := none, logs := [], active := false
    waiting := false, filename := "w.pdf" }

/-- System state holding `doneRecord` with its worker finished. -/
def c4w : SysState :=
  { deployment_id := "d1", jobs := [("d1-w1", doneRecord)], results := []
    pendingW := [], runningW := [], doneW := ["d1-w1"] }

theorem terminal_status_stable_after_worker_done_witness :
    force_close_job "d1" c4w.jobs c4w.results "d1-w1" "stuck" 10 =
      (c4w.jobs, c4w.results, 400) :=
  (terminal_status_stable_after_worker_done 10 c4w (delete_state c4w "d1-zz")
    "d1-w1" doneRecord (SysStep.deleteStep c4w "d1-zz") (by decide)
    (Or.inl (by decide)) (by decide) (by decide) (by decide) (by decide)).2 "stuck"

/-- Warmup coordinator state (warmup_service.py): the local status, the
shared (Redis) status when coordination is enabled, and a counter of
successful pipeline exercises added by the model to observe whether the
pipeline ever ran. -/
structure WarmupState where
  use_redis_coordination : Bool
  warmup_status : String
  redis_status : Option String
  pipeline_successes : Nat
deriving DecidableEq, Repr

/-- Embedding of `WarmupService._check_redis_warmup_status`
(warmup_service.py lines 194-213): adopt a shared ready/in_progress
status; without a Redis connection the local status is kept. -/
def check_redis_warmup_status (s : WarmupState) : WarmupState :=
  if s.use_redis_coordination = false then s
  else
    match s.redis_status with
    | some st =>
        if st = "ready" then { s with warmup_status := "ready" }
        else if st = "in_progress" then { s with warmup_status := "in_progress" }
        else s
    | none => s

/-- Embedding of the status logic of `WarmupService.__init__`
(warmup_service.py lines 63-73): with Redis coordination the shared
status is consulted; without it the container-level warmup is assumed
complete and the status is set to ready outright. -/
def warmup_service_init (use_redis_coordination : Bool)
    (redis_status : Option String) : WarmupState :=
  let s : WarmupState :=
    { use_redis_coordination := use_redis_coordination
      warmup_status := "not_started", redis_status := redis_status
      pipeline_successes := 0 }
  if use_redis_coordination then check_redis_warmup_status s
  else { s with warmup_status := "ready" }

/-- Embedding of `WarmupService._run_warmup` (warmup_service.py lines
485-539) with the endpoint tests abstracted by their outcome: no warmup
files means the status is set to ready without exercising the pipeline;
otherwise the synchronous /ocr test decides ready or failed, and a
success counts as one pipeline exercise. -/
def run_warmup (warmup_files_count : Nat) (sync_ocr_succeeds : Bool)
    (s : WarmupState) : WarmupState :=
  if warmup_files_count = 0 then
    { s with warmup_status := "ready", redis_status := some "ready" }
  else if sync_ocr_succeeds then
    { s with warmup_status := "ready", redis_status := some "ready",
             pipeline_successes := s.pipeline_successes + 1 }
  else
    { s with warmup_status := "failed", redis_status := some "failed" }

/-- Embedding of `WarmupService.start_warmup` (warmup_service.py lines
264-306), with the background thread run to completion: without Redis
coordination the status is set to ready immediately (warmup assumed done
at container level); with it, the shared status is re-checked, an
in-progress or ready status defers, a held lock defers, and otherwise
the warmup work runs. -/
def start_warmup (lock_available : Bool) (warmup_files_count : Nat)
    (sync_ocr_succeeds : Bool) (s : WarmupState) : WarmupState :=
  if s.use_redis_coordination = false then { s with warmup_status := "ready" }
  else
    let s1 := check_redis_warmup_status s
    if s1.warmup_status = "in_progress" ∨ s1.warmup_status = "ready" then s1
    else if lock_available = false then check_redis_warmup_status s1
    else run_warmup warmup_files_count sync_ocr_succeeds
      { s1 with warmup_status := "in_progress", redis_status := some "in_progress" }

/-- Embedding of `WarmupService.is_ready` (warmup_service.py lines
630-636): re-synchronize with the shared status when coordinating, then
compare with ready. -/
def is_ready (s : WarmupState) : Bool :=
  decide ((if s.use_redis_coordination then check_redis_warmup_status s
    else s).warmup_status = "ready")

/-- C6 counterexample: the deployed configuration constructs the warmup
service with Redis coordination disabled (warmup_service.py line 640),
and then `__init__` already sets the status to ready with zero pipeline
exercises, so is_ready answers true although the pipeline was never
exercised; moreover even the coordinated runner reports ready without a
pipeline run when the warmup directory is empty. -/
theorem warmup_ready_without_pipeline_run :
    (warmup_service_init false none).warmup_status = "ready" ∧
      (warmup_service_init false none).pipeline_successes = 0 ∧
      is_ready (warmup_service_init false none) = true ∧
      (run_warmup 0 false (warmup_service_init true none)).warmup_status =
        "ready" ∧
      (run_warmup 0 false (warmup_service_init true none)).pipeline_successes =
        0 := by
  refine ⟨by decide, by decide, by decide, by decide, by decide⟩

/-- C6 amended: only in Redis-coordination mode, starting from a fresh
shared state with at least one warmup file, does the status become
ready exactly when the pipeline test succeeded (counting one successful
exercise); the container-level mode that the source actually
instantiates, and the empty-warmup-directory path, report ready
without any pipeline run. -/
theorem warmup_redis_ready_requires_pipeline_success (warmup_files_count : Nat)
    (sync_ocr_succeeds : Bool) (s : WarmupState)
    (hredis : s.use_redis_coordination = true)
    (hstatus : s.redis_status = none)
    (hws : s.warmup_status = "not_started")
    (hfiles : warmup_files_count ≠ 0)
    (hzero : s.pipeline_successes = 0) :
    ((start_warmup true warmup_files_count sync_ocr_succeeds s).warmup_status =
        "ready" ↔ sync_ocr_succeeds = true) ∧
      (start_warmup true warmup_files_count sync_ocr_succeeds s).pipeline_successes =
        (if sync_ocr_succeeds then 1 else 0) := by
  cases sync_ocr_succeeds with
  | true =>
      constructor
      · simp [start_warmup, check_redis_warmup_status, run_warmup, hredis,
          hstatus, hws, hfiles]
      · simp [start_warmup, check_redis_warmup_status, run_warmup, hredis,
          hstatus, hws, hfiles, hzero]
  | false =>
      constructor
      · simp [start_warmup, check_redis_warmup_status, run_warmup, hredis,
          hstatus, hws, hfiles]
      · simp [start_warmup, check_redis_warmup_status, run_warmup, hredis,
          hstatus, hws, hfiles, hzero]

/-- Fresh coordinated warmup state used by the C6 witness. -/
def freshWarmup : WarmupState :=
  { use_redis_coordination := true, warmup_status := "not_started"
    redis_status := none, pipeline_successes := 0 }

theorem warmup_redis_ready_requires_pipeline_success_witness :
    ((start_warmup true 1 true freshWarmup).warmup_status = "ready" ↔
        true = true) ∧
      (start_warmup true 1 true freshWarmup).pipeline_successes =
        (if true then 1 else 0) :=
  warmup_redis_ready_requires_pipeline_success 1 true freshWarmup
    (by decide) (by decide) (by decide) (by decide) (by decide)

/-- Progress of one job through the worker pool of `enqueue_job`
(queue_manager.py lines 964-993): submitted to the executor
(pendingPh), slot taken and counter incremented at the top of
process_job (acquiredPh), status written to processing (processingPh),
terminal status written (terminalPh), counter decremented in the
finally block (donePh). -/
inductive WPhase where
  | pendingPh
  | acquiredPh
  | processingPh
  | terminalPh
  | donePh
deriving DecidableEq, Repr

/-- One job as the pool sees it: its stored status and its phase in the
worker pool. -/
structure PJob where
  status : String
  phase : WPhase
deriving DecidableEq, Repr

/-- Dispatcher state: the configured limit (RQ_WORKERS), the
active_workers counter guarded by worker_lock, and the jobs. -/
structure PoolState where
  max_workers : Nat
  active_workers : Nat
  jobs : List (String × PJob)
deriving Repr

/-- Count the jobs satisfying a predicate. -/
def countJobs (p : PJob → Bool) (t : List (String × PJob)) : Nat :=
  (t.filter (fun kv => p kv.2)).length

/-- A job holds a worker slot from the counter increment to the
decrement in the finally block. -/
def isRunningPhase : WPhase → Bool
  | .acquiredPh => true
  | .processingPh => true
  | .terminalPh => true
  | _ => false

/-- Number of jobs currently holding a worker slot. -/
def runningCount (s : PoolState) : Nat :=
  countJobs (fun j => isRunningPhase j.phase) s.jobs

/-- Number of jobs whose stored status is processing. -/
def processingCount (s : PoolState) : Nat :=
  countJobs (fun j => decide (j.status = "processing")) s.jobs

/-- The queued record enqueue_job creates. -/
def queuedPJob : PJob := { status := "queued", phase := WPhase.pendingPh }

/-- The record after the processing write. -/
def processingPJob : PJob := { status := "processing", phase := WPhase.processingPh }

/-- The record after the completion write. -/
def completedPJob : PJob := { status := "completed", phase := WPhase.terminalPh }

/-- The record after the except-clause write. -/
def failedPJob : PJob := { status := "failed", phase := WPhase.terminalPh }

/-- State after `enqueue_job` stored the new queued record and handed
the closure to the executor. -/
def submit_state (s : PoolState) (id : String) : PoolState :=
  { s with jobs := aset s.jobs id queuedPJob }

/-- State after a pool thread entered process_job: the counter is
incremented under worker_lock. -/
def acquire_state (s : PoolState) (id : String) (j : PJob) : PoolState :=
  { s with active_workers := s.active_workers + 1,
           jobs := aset s.jobs id { j with phase := WPhase.acquiredPh } }

/-- State after process_job wrote status processing. -/
def mark_processing_state (s : PoolState) (id : String) : PoolState :=
  { s with jobs := aset s.jobs id processingPJob }

/-- State after process_job wrote status completed. -/
def complete_pool_state (s : PoolState) (id : String) : PoolState :=
  { s with jobs := aset s.jobs id completedPJob }

/-- State after the except clause wrote status failed (reachable from
the processing write or from an exception before it). -/
def fail_pool_state (s : PoolState) (id : String) : PoolState :=
  { s with jobs := aset s.jobs id failedPJob }

/-- State after the finally block decremented the counter under
worker_lock. -/
def release_state (s : PoolState) (id : String) (j : PJob) : PoolState :=
  { s with active_workers := s.active_workers - 1,
           jobs := aset s.jobs id { j with phase := WPhase.donePh } }

/-- Steps of the dispatcher derived from enqueue_job and
ThreadPoolExecutor semantics: a pending task starts running only while
fewer than max_workers tasks hold slots (the executor admits at most
max_workers concurrent threads); the counter increment and the
decrement bracket every execution, the decrement sitting in the finally
block so the exception path (failJob from acquiredPh) also releases. -/
inductive PoolStep : PoolState → PoolState → Prop where
  | submit (s : PoolState) (id : String) (hfresh : alookup s.jobs id = none) :
      PoolStep s (submit_state s id)
  | acquire (s : PoolState) (id : String) (j : PJob)
      (h : alookup s.jobs id = some j) (hp : j.phase = WPhase.pendingPh)
      (hcap : runningCount s < s.max_workers) :
      PoolStep s (acquire_state s id j)
  | markProcessing (s : PoolState) (id : String) (j : PJob)
      (h : alookup s.jobs id = some j) (hp : j.phase = WPhase.acquiredPh) :
      PoolStep s (mark_processing_state s id)
  | completeJob (s : PoolState) (id : String) (j : PJob)
      (h : alookup s.jobs id = some j) (hp : j.phase = WPhase.processingPh) :
      PoolStep s (complete_pool_state s id)
  | failJob (s : PoolState) (id : String) (j : PJob)
      (h : alookup s.jobs id = some j)
      (hp : j.phase = WPhase.acquiredPh ∨ j.phase = WPhase.processingPh) :
      PoolStep s (fail_pool_state s id)
  | release (s : PoolState) (id : String) (j : PJob)
      (h : alookup s.jobs id = some j) (hp : j.phase = WPhase.terminalPh) :
      PoolStep s (release_state s id j)

/-- Pool state at process start: no jobs, counter zero, limit n. -/
def initPool (n : Nat) : PoolState :=
  { max_workers := n, active_workers := 0, jobs := [] }

/-- States reachable by the dispatcher from startup. -/
inductive PoolReach (n : Nat) : PoolState → Prop where
  | init : PoolReach n (initPool n)
  | step (s s' : PoolState) (h : PoolReach n s) (hs : PoolStep s s') :
      PoolReach n s'

theorem countJobs_cons (p : PJob → Bool) (a : String) (b : PJob)
    (t : List (String × PJob)) :
    countJobs p ((a, b) :: t) = (if p b then 1 else 0) + countJobs p t := by
  by_cases hb : p b
  · simp [countJobs, List.filter, hb]
    omega
  · simp [countJobs, List.filter, hb]

theorem countJobs_aset_of_alookup (t : List (String × PJob)) (k : String)
    (j v : PJob) (p : PJob → Bool) (h : alookup t k = some j) :
    countJobs p (aset t k v) + (if p j then 1 else 0) =
      countJobs p t + (if p v then 1 else 0) := by
  induction t with
  | nil => simp [alookup] at h
  | cons hd tl ih =>
      obtain ⟨a, b⟩ := hd
      by_cases ha : a = k
      · subst ha
        simp only [alookup, eq_self_iff_true, if_true, Option.some.injEq] at h
        subst h
        simp only [aset, eq_self_iff_true, if_true]
        rw [countJobs_cons, countJobs_cons]
        omega
      · simp only [alookup, if_neg ha] at h
        simp only [aset, if_neg ha]
        rw [countJobs_cons, countJobs_cons]
        have := ih h
        omega

theorem countJobs_aset_fresh (t : List (String × PJob)) (k : String) (v : PJob)
    (p : PJob → Bool) (h : alookup t k = none) :
    countJobs p (aset t k v) = countJobs p t + (if p v then 1 else 0) := by
  rw [aset_fresh_append t k v h]
  by_cases hv : p v
  · simp [countJobs, List.filter_append, hv]
  · simp [countJobs, List.filter_append, hv]

theorem countJobs_le_of_imp (p q : PJob → Bool) (t : List (String × PJob))
    (himp : ∀ kv, kv ∈ t → p kv.2 = true → q kv.2 = true) :
    countJobs p t ≤ countJobs q t := by
  induction t with
  | nil => simp [countJobs]
  | cons hd tl ih =>
      obtain ⟨a, b⟩ := hd
      rw [countJobs_cons, countJobs_cons]
      have htl := ih (fun kv hkv => himp kv (List.mem_cons_of_mem _ hkv))
      by_cases hb : p b
      · have hq := himp (a, b) (List.mem_cons_self _ _) hb
        simp [hb, hq]
        omega
      · simp [hb]
        omega

theorem countRunning_aset (t : List (String × PJob)) (k : String) (j v : PJob)
    (h : alookup t k = some j) :
    countJobs (fun x => isRunningPhase x.phase) (aset t k v) +
      (if isRunningPhase j.phase then 1 else 0) =
    countJobs (fun x => isRunningPhase x.phase) t +
      (if isRunningPhase v.phase then 1 else 0) := by
  simpa using
    countJobs_aset_of_alookup t k j v (fun x => isRunningPhase x.phase) h

theorem mem_aset {β : Type} (t : List (String × β)) (k : String) (v : β)
    (kv' : String × β) (h : kv' ∈ aset t k v) : kv' = (k, v) ∨ kv' ∈ t := by
  induction t with
  | nil => simpa [aset] using h
  | cons hd tl ih =>
      obtain ⟨a, b⟩ := hd
      by_cases ha : a = k
      · subst ha
        simp only [aset, eq_self_iff_true, if_true, List.mem_cons] at h
        rcases h with h | h
        · exact Or.inl h
        · exact Or.inr (List.mem_cons_of_mem _ h)
      · simp only [aset, if_neg ha, List.mem_cons] at h
        rcases h with h | h
        · exact Or.inr (by simp [h])
        · rcases ih h with hl | hl
          · exact Or.inl hl
          · exact Or.inr (List.mem_cons_of_mem _ hl)

/-- The inductive invariant of the dispatcher: the configured limit is
preserved, the active_workers counter equals the number of slot-holding
jobs (increments and decrements are paired, the decrement in the
finally block covering the exception path), that number never exceeds
the limit, and a job in status processing is exactly in the
processingPh span of its worker. -/
def PoolInv (n : Nat) (s : PoolState) : Prop :=
  s.max_workers = n ∧
  s.active_workers = runningCount s ∧
  runningCount s ≤ n ∧
  ∀ kv, kv ∈ s.jobs → kv.2.status = "processing" →
    kv.2.phase = WPhase.processingPh

theorem pool_inv_init (n : Nat) : PoolInv n (initPool n) := by
  refine ⟨rfl, rfl, by simp [initPool, runningCount, countJobs], ?_⟩
  intro kv hkv
  simp [initPool] at hkv

theorem pool_inv_step (n : Nat) (s s' : PoolState) (hinv : PoolInv n s)
    (hs : PoolStep s s') : PoolInv n s' := by
  obtain ⟨hmax, hact, hle, hproc⟩ := hinv
  cases hs with
  | submit id hfresh =>
      have hrun : runningCount (submit_state s id) = runningCount s := by
        have h2 : runningCount (submit_state s id) =
            countJobs (fun x => isRunningPhase x.phase)
              (aset s.jobs id queuedPJob) := rfl
        rw [h2, countJobs_aset_fresh s.jobs id queuedPJob _ hfresh]
        rfl
      refine ⟨hmax, ?_, ?_, ?_⟩
      · have h1 : (submit_state s id).active_workers = s.active_workers := rfl
        rw [h1, hrun]
        exact hact
      · rw [hrun]
        exact hle
      · intro kv hkv hstat
        rcases mem_aset s.jobs id queuedPJob kv hkv with heq | hmem
        · subst heq
          simp [queuedPJob] at hstat
        · exact hproc kv hmem hstat
  | acquire id j h hp hcap =>
      have hjq : j.status ≠ "processing" := by
        intro hc
        have hph := hproc (id, j) (alookup_mem s.jobs id j h) hc
        rw [hp] at hph
        cases hph
      have hcount0 := countRunning_aset s.jobs id j
        { j with phase := WPhase.acquiredPh } h
      rw [hp] at hcount0
      have hcount : countJobs (fun x => isRunningPhase x.phase)
          (aset s.jobs id { j with phase := WPhase.acquiredPh }) + 0 =
          countJobs (fun x => isRunningPhase x.phase) s.jobs + 1 := hcount0
      have hrun : runningCount (acquire_state s id j) = runningCount s + 1 := by
        have h2 : runningCount (acquire_state s id j) =
            countJobs (fun x => isRunningPhase x.phase)
              (aset s.jobs id { j with phase := WPhase.acquiredPh }) := rfl
        rw [h2]
        have h3 : runningCount s =
            countJobs (fun x => isRunningPhase x.phase) s.jobs := rfl
        rw [h3]
        omega
      refine ⟨hmax, ?_, ?_, ?_⟩
      · have h1 : (acquire_state s id j).active_workers =
            s.active_workers + 1 := rfl
        rw [h1, hrun, hact]
      · rw [hrun]
        rw [hmax] at hcap
        omega
      · intro kv hkv hstat
        rcases mem_aset s.jobs id { j with phase := WPhase.acquiredPh } kv hkv
          with heq | hmem
        · subst heq
          exact absurd hstat hjq
        · exact hproc kv hmem hstat
  | markProcessing id j h hp =>
      have hcount0 := countRunning_aset s.jobs id j processingPJob h
      rw [hp] at hcount0
      have hcount : countJobs (fun x => isRunningPhase x.phase)
          (aset s.jobs id processingPJob) + 1 =
          countJobs (fun x => isRunningPhase x.phase) s.jobs + 1 := hcount0
      have hrun : runningCount (mark_processing_state s id) = runningCount s := by
        have h2 : runningCount (mark_processing_state s id) =
            countJobs (fun x => isRunningPhase x.phase)
              (aset s.jobs id processingPJob) := rfl
        have h3 : runningCount s =
            countJobs (fun x => isRunningPhase x.phase) s.jobs := rfl
        rw [h2, h3]
        omega
      refine ⟨hmax, ?_, ?_, ?_⟩
      · have h1 : (mark_processing_state s id).active_workers =
            s.active_workers := rfl
        rw [h1, hrun]
        exact hact
      · rw [hrun]
        exact hle
      · intro kv hkv hstat
        rcases mem_aset s.jobs id processingPJob kv hkv with heq | hmem
        · subst heq
          rfl
        · exact hproc kv hmem hstat
  | completeJob id j h hp =>
      have hcount0 := countRunning_aset s.jobs id j completedPJob h
      rw [hp] at hcount0
      have hcount : countJobs (fun x => isRunningPhase x.phase)
          (aset s.jobs id completedPJob) + 1 =
          countJobs (fun x => isRunningPhase x.phase) s.jobs + 1 := hcount0
      have hrun : runningCount (complete_pool_state s id) = runningCount s := by
        have h2 : runningCount (complete_pool_state s id) =
            countJobs (fun x => isRunningPhase x.phase)
              (aset s.jobs id completedPJob) := rfl
        have h3 : runningCount s =
            countJobs (fun x => isRunningPhase x.phase) s.jobs := rfl
        rw [h2, h3]
        omega
      refine ⟨hmax, ?_, ?_, ?_⟩
      · have h1 : (complete_pool_state s id).active_workers =
            s.active_workers := rfl
        rw [h1, hrun]
        exact hact
      · rw [hrun]
        exact hle
      · intro kv hkv hstat
        rcases mem_aset s.jobs id completedPJob kv hkv with heq | hmem
        · subst heq
          simp [completedPJob] at hstat
        · exact hproc kv hmem hstat
  | failJob id j h hp =>
      have hjrun : isRunningPhase j.phase = true := by
        rcases hp with hp | hp <;> rw [hp] <;> rfl
      have hcount0 := countRunning_aset s.jobs id j failedPJob h
      rw [hjrun] at hcount0
      have hcount : countJobs (fun x => isRunningPhase x.phase)
          (aset s.jobs id failedPJob) + 1 =
          countJobs (fun x => isRunningPhase x.phase) s.jobs + 1 := hcount0
      have hrun : runningCount (fail_pool_state s id) = runningCount s := by
        have h2 : runningCount (fail_pool_state s id) =
            countJobs (fun x => isRunningPhase x.phase)
              (aset s.jobs id failedPJob) := rfl
        have h3 : runningCount s =
            countJobs (fun x => isRunningPhase x.phase) s.jobs := rfl
        rw [h2, h3]
        omega
      refine ⟨hmax, ?_, ?_, ?_⟩
      · have h1 : (fail_pool_state s id).active_workers =
            s.active_workers := rfl
        rw [h1, hrun]
        exact hact
      · rw [hrun]
        exact hle
      · intro kv hkv hstat
        rcases mem_aset s.jobs id failedPJob kv hkv with heq | hmem
        · subst heq
          simp [failedPJob] at hstat
        · exact hproc kv hmem hstat
  | release id j h hp =>
      have hjterm : j.status ≠ "processing" := by
        intro hc
        have hph := hproc (id, j) (alookup_mem s.jobs id j h) hc
        rw [hp] at hph
        cases hph
      have hcount0 := countRunning_aset s.jobs id j
        { j with phase := WPhase.donePh } h
      rw [hp] at hcount0
      have hcount : countJobs (fun x => isRunningPhase x.phase)
          (aset s.jobs id { j with phase := WPhase.donePh }) + 1 =
          countJobs (fun x => isRunningPhase x.phase) s.jobs + 0 := hcount0
      have hrun : runningCount (release_state s id j) + 1 = runningCount s := by
        have h2 : runningCount (release_state s id j) =
            countJobs (fun x => isRunningPhase x.phase)
              (aset s.jobs id { j with phase := WPhase.donePh }) := rfl
        have h3 : runningCount s =
            countJobs (fun x => isRunningPhase x.phase) s.jobs := rfl
        rw [h2, h3]
        omega
      refine ⟨hmax, ?_, ?_, ?_⟩
      · have h1 : (release_state s id j).active_workers =
            s.active_workers - 1 := rfl
        rw [h1]
        omega
      · omega
      · intro kv hkv hstat
        rcases mem_aset s.jobs id { j with phase := WPhase.donePh } kv hkv
          with heq | hmem
        · subst heq
          exact absurd hstat hjterm
        · exact hproc kv hmem hstat


theorem pool_inv_reach (n : Nat) (s : PoolState) (h : PoolReach n s) :
    PoolInv n s := by
  induction h with
  | init => exact pool_inv_init n
  | step s s' hreach hs ih => exact pool_inv_step n s s' ih hs

/-- C1: in every reachable dispatcher state the number of jobs with
status processing is at most the configured worker limit n; the
active_workers counter equals the number of slot-holding jobs (the
increment at slot acquisition and the decrement at release are paired
under the mutex, the decrement in the finally block covering the
exception path), and that number is itself at most n; pending
submissions beyond n wait queued because the acquire step requires a
free slot. -/
theorem processing_jobs_bounded_by_max_workers (n : Nat) (s : PoolState)
    (h : PoolReach n s) :
    processingCount s ≤ n ∧ s.active_workers = runningCount s ∧
      runningCount s ≤ n := by
  obtain ⟨hmax, hact, hle, hproc⟩ := pool_inv_reach n s h
  refine ⟨?_, hact, hle⟩
  have hmono : processingCount s ≤ runningCount s := by
    unfold processingCount runningCount
    refine countJobs_le_of_imp _ _ s.jobs ?_
    intro kv hkv hstat
    have := hproc kv hkv (by simpa using hstat)
    simp [this, isRunningPhase]
  omega

/-- Trace for the C1 witness: one job submitted, admitted and marked
processing under limit 1. -/
def c1s1 : PoolState := submit_state (initPool 1) "a"

/-- Second trace state of the C1 witness. -/
def c1s2 : PoolState :=
  acquire_state c1s1 "a" { status := "queued", phase := WPhase.pendingPh }

/-- Third trace state of the C1 witness. -/
def c1s3 : PoolState := mark_processing_state c1s2 "a"

theorem processing_jobs_bounded_by_max_workers_witness :
    processingCount c1s3 ≤ 1 ∧ c1s3.active_workers = runningCount c1s3 ∧
      runningCount c1s3 ≤ 1 :=
  processing_jobs_bounded_by_max_workers 1 c1s3
    (PoolReach.step c1s2 c1s3
      (PoolReach.step c1s1 c1s2
        (PoolReach.step (initPool 1) c1s1 PoolReach.init
          (PoolStep.submit (initPool 1) "a" (by decide)))
        (PoolStep.acquire c1s1 "a" { status := "queued", phase := WPhase.pendingPh }
          (by decide) (by decide) (by decide)))
      (PoolStep.markProcessing c1s2 "a"
        { status := "queued", phase := WPhase.acquiredPh } (by decide) (by decide)))

end DoclingFast
